import Mathlib

/-!
Verification of the trapezoidal fuzzy number library.

The arithmetic engine (`TrapezoidalFuzzyNumber` in
`src/fuzzy_numbers/trapezoidal_fuzzy_number/trapezoidal_fuzzy_number.py`)
is embedded over `ℚ`.  Partial operations (Python `assert` failures,
`ValueError`, `ZeroDivisionError`) are modelled by `Option`: `none` is the
computation raising, `some` is a produced value.  The permutation testers
(`independent_trapezoidal_ambiguity_measure.py`,
`dependent_trapezoidal_ambiguity_measure.py`) are embedded with the stream of
randomly drawn permutations (resp. random signs) passed in as an explicit
argument, so each run is a deterministic function of that stream.
-/

namespace Trapz

/-- The four boundaries of a trapezoidal fuzzy number, in source order
`(lower_left_bound, upper_left_bound, upper_right_bound, lower_right_bound)`,
written a1, a2, a3, a4. -/
structure Trap where
  a1 : ℚ
  a2 : ℚ
  a3 : ℚ
  a4 : ℚ
deriving DecidableEq, Repr

/-- The constructor invariant a1 ≤ a2 ≤ a3 ≤ a4. -/
def ordered (t : Trap) : Prop :=
  t.a1 ≤ t.a2 ∧ t.a2 ≤ t.a3 ∧ t.a3 ≤ t.a4

instance (t : Trap) : Decidable (ordered t) :=
  inferInstanceAs (Decidable (t.a1 ≤ t.a2 ∧ t.a2 ≤ t.a3 ∧ t.a3 ≤ t.a4))

/-- The `TrapezoidalFuzzyNumber.__init__` boundary check: the four values must
be non-decreasing, otherwise the assertion fails and no instance is produced. -/
def mkTrap (x1 x2 x3 x4 : ℚ) : Option Trap :=
  if x1 ≤ x2 ∧ x2 ≤ x3 ∧ x3 ≤ x4 then some ⟨x1, x2, x3, x4⟩ else none

/-- `TrapezoidalFuzzyNumber(*args)`: unpacking demands exactly four values
(anything else raises before the boundary assertion runs). -/
def mkTrapOfList : List ℚ → Option Trap
  | [x1, x2, x3, x4] => mkTrap x1 x2 x3 x4
  | _ => none

/-- The static `sort` helper (`np.sort` on the four values) and the `sorted`
call in `__truediv__`: ascending sort of a list of rationals. -/
def sortList (l : List ℚ) : List ℚ :=
  List.insertionSort (· ≤ ·) l

/-- The Python builtin `min` on two values. -/
def pymin (a b : ℚ) : ℚ := if a ≤ b then a else b

/-- The Python builtin `max` on two values. -/
def pymax (a b : ℚ) : ℚ := if a ≤ b then b else a

/-- `is_positive`: a1 ≥ 0. -/
def is_positive (t : Trap) : Prop := 0 ≤ t.a1

instance (t : Trap) : Decidable (is_positive t) :=
  inferInstanceAs (Decidable (0 ≤ t.a1))

/-- `is_negative`: a4 ≤ 0. -/
def is_negative (t : Trap) : Prop := t.a4 ≤ 0

instance (t : Trap) : Decidable (is_negative t) :=
  inferInstanceAs (Decidable (t.a4 ≤ 0))

/-- `is_arbitrary`: a1 < 0 < a4. -/
def is_arbitrary (t : Trap) : Prop := t.a1 < 0 ∧ 0 < t.a4

instance (t : Trap) : Decidable (is_arbitrary t) :=
  inferInstanceAs (Decidable (t.a1 < 0 ∧ 0 < t.a4))

/-- `is_near_zero`: one of the three zero-straddling patterns
a1 < a2 ≤ a3 < 0 < a4, a1 < a2 < 0 < a3 < a4, a1 < 0 ≤ a2 < a3 < a4. -/
def is_near_zero (t : Trap) : Prop :=
  (t.a1 < t.a2 ∧ t.a2 ≤ t.a3 ∧ t.a3 < 0 ∧ 0 < t.a4) ∨
  (t.a1 < t.a2 ∧ t.a2 < 0 ∧ 0 < t.a3 ∧ t.a3 < t.a4) ∨
  (t.a1 < 0 ∧ 0 ≤ t.a2 ∧ t.a2 < t.a3 ∧ t.a3 < t.a4)

instance (t : Trap) : Decidable (is_near_zero t) :=
  inferInstanceAs (Decidable (_ ∨ _ ∨ _))

/-- `__add__`: boundary-wise sums, re-sorted, then the constructor. -/
def add (s o : Trap) : Option Trap :=
  mkTrapOfList (sortList [s.a1 + o.a1, s.a2 + o.a2, s.a3 + o.a3, s.a4 + o.a4])

/-- `__sub__`: cross differences a_i - b_(5-i), re-sorted, then the
constructor. -/
def sub (s o : Trap) : Option Trap :=
  mkTrapOfList (sortList [s.a1 - o.a4, s.a2 - o.a3, s.a3 - o.a2, s.a4 - o.a1])

/-- `__neg__`: reverse the boundaries and flip signs. -/
def neg (s : Trap) : Option Trap :=
  mkTrap (-s.a4) (-s.a3) (-s.a2) (-s.a1)

/-- `__mul__` with a float operand k: multiply the outer pair (a1, a4) and the
inner pair (a2, a3) by k, then take min and max within each pair. -/
def scalar_mul (s : Trap) (k : ℚ) : Option Trap :=
  mkTrap (pymin (k * s.a1) (k * s.a4)) (pymin (k * s.a2) (k * s.a3))
    (pymax (k * s.a2) (k * s.a3)) (pymax (k * s.a1) (k * s.a4))

/-- `arbitrary_multiplication`: outer bounds from the four outer cross
products, inner bounds from the four inner cross products. -/
def arbitrary_multiplication (s o : Trap) : Option Trap :=
  mkTrap
    (pymin (pymin (s.a1 * o.a1) (s.a1 * o.a4)) (pymin (s.a4 * o.a1) (s.a4 * o.a4)))
    (pymin (pymin (s.a2 * o.a2) (s.a2 * o.a3)) (pymin (s.a3 * o.a2) (s.a3 * o.a3)))
    (pymax (pymax (s.a2 * o.a2) (s.a2 * o.a3)) (pymax (s.a3 * o.a2) (s.a3 * o.a3)))
    (pymax (pymax (s.a1 * o.a1) (s.a1 * o.a4)) (pymax (s.a4 * o.a1) (s.a4 * o.a4)))

/-- `restricted_multiplication`: index-paired products, indices reversed on the
side of a negative operand; falling off the if chain yields no result. -/
def restricted_multiplication (s o : Trap) : Option Trap :=
  if is_positive s ∧ is_positive o then
    mkTrap (s.a1 * o.a1) (s.a2 * o.a2) (s.a3 * o.a3) (s.a4 * o.a4)
  else if is_negative s ∧ is_negative o then
    mkTrap (s.a4 * o.a4) (s.a3 * o.a3) (s.a2 * o.a2) (s.a1 * o.a1)
  else if is_positive s ∧ is_negative o then
    mkTrap (s.a4 * o.a1) (s.a3 * o.a2) (s.a2 * o.a3) (s.a1 * o.a4)
  else if is_negative s ∧ is_positive o then
    mkTrap (s.a1 * o.a4) (s.a2 * o.a3) (s.a3 * o.a2) (s.a4 * o.a1)
  else none

/-- `semi_restricted_multiplication`: four sub-cases keyed on which operand is
arbitrary and which is positive or negative. -/
def semi_restricted_multiplication (s o : Trap) : Option Trap :=
  if is_positive s ∧ is_arbitrary o then
    mkTrap (pymin (s.a1 * o.a1) (s.a4 * o.a1)) (pymin (s.a2 * o.a2) (s.a3 * o.a2))
      (pymax (s.a2 * o.a3) (s.a3 * o.a3)) (pymax (s.a1 * o.a4) (s.a4 * o.a4))
  else if is_negative s ∧ is_arbitrary o then
    mkTrap (pymin (s.a1 * o.a4) (s.a4 * o.a4)) (pymin (s.a2 * o.a3) (s.a3 * o.a3))
      (pymax (s.a3 * o.a2) (s.a2 * o.a2)) (pymax (s.a4 * o.a1) (s.a1 * o.a1))
  else if is_arbitrary s ∧ is_positive o then
    mkTrap (pymin (s.a1 * o.a1) (s.a1 * o.a4)) (pymin (s.a2 * o.a2) (s.a2 * o.a3))
      (pymax (s.a3 * o.a2) (s.a3 * o.a3)) (pymax (s.a4 * o.a1) (s.a4 * o.a4))
  else if is_arbitrary s ∧ is_negative o then
    mkTrap (pymin (s.a4 * o.a1) (s.a4 * o.a4)) (pymin (s.a3 * o.a2) (s.a3 * o.a3))
      (pymax (s.a2 * o.a3) (s.a2 * o.a2)) (pymax (s.a1 * o.a4) (s.a1 * o.a1))
  else none

/-- `semi_restricted_with_near_zero_multiplication`: six sub-cases, three
zero-straddling patterns (with the non-strict comparisons of this method, not
those of `is_near_zero`) on either operand, the other operand arbitrary. -/
def semi_restricted_with_near_zero_multiplication (s o : Trap) : Option Trap :=
  if (s.a1 < s.a2 ∧ s.a2 < s.a3 ∧ s.a3 ≤ 0 ∧ 0 ≤ s.a4) ∧ is_arbitrary o then
    mkTrap (pymin (s.a1 * o.a4) (s.a4 * o.a1)) (pymin (s.a2 * o.a3) (s.a3 * o.a3))
      (pymax (s.a3 * o.a2) (s.a2 * o.a2)) (pymax (s.a4 * o.a4) (s.a1 * o.a1))
  else if (s.a1 < s.a2 ∧ s.a2 ≤ 0 ∧ 0 ≤ s.a3 ∧ s.a3 < s.a4) ∧ is_arbitrary o then
    mkTrap (pymin (s.a1 * o.a4) (s.a4 * o.a1)) (pymin (s.a2 * o.a3) (s.a3 * o.a2))
      (pymax (s.a2 * o.a2) (s.a3 * o.a3)) (pymax (s.a4 * o.a4) (s.a1 * o.a1))
  else if (s.a1 ≤ 0 ∧ 0 ≤ s.a2 ∧ s.a2 < s.a3 ∧ s.a3 < s.a4) ∧ is_arbitrary o then
    mkTrap (pymin (s.a1 * o.a4) (s.a4 * o.a1)) (pymin (s.a2 * o.a3) (s.a3 * o.a2))
      (pymax (s.a2 * o.a3) (s.a3 * o.a3)) (pymax (s.a4 * o.a4) (s.a1 * o.a1))
  else if is_arbitrary s ∧ (o.a1 < o.a2 ∧ o.a2 < o.a3 ∧ o.a3 ≤ 0 ∧ 0 ≤ o.a4) then
    mkTrap (pymin (s.a4 * o.a1) (s.a1 * o.a4)) (pymin (s.a3 * o.a2) (s.a3 * o.a3))
      (pymax (s.a2 * o.a3) (s.a2 * o.a2)) (pymax (s.a1 * o.a1) (s.a4 * o.a4))
  else if is_arbitrary s ∧ (o.a1 < o.a2 ∧ o.a2 ≤ 0 ∧ 0 ≤ o.a3 ∧ o.a3 < o.a4) then
    mkTrap (pymin (s.a4 * o.a1) (s.a1 * o.a4)) (pymin (s.a3 * o.a2) (s.a2 * o.a3))
      (pymax (s.a2 * o.a2) (s.a3 * o.a3)) (pymax (s.a1 * o.a1) (s.a4 * o.a4))
  else if is_arbitrary s ∧ (o.a1 ≤ 0 ∧ 0 ≤ o.a2 ∧ o.a2 < o.a3 ∧ o.a3 < o.a4) then
    mkTrap (pymin (s.a4 * o.a1) (s.a1 * o.a4)) (pymin (s.a2 * o.a2) (s.a2 * o.a3))
      (pymax (s.a3 * o.a2) (s.a3 * o.a3)) (pymax (s.a1 * o.a1) (s.a4 * o.a4))
  else none

/-- The strategy the `__rmul__` dispatcher selects for a pair of operands. -/
inductive MulStrategy where
  | arbitrary
  | restricted
  | semiRestricted
  | semiNearZero
  | invalid
deriving DecidableEq, Repr

/-- The branch structure of `__rmul__`, recording only which multiplication
strategy is selected. -/
def rmul_strategy (s o : Trap) : MulStrategy :=
  if is_arbitrary s ∧ is_arbitrary o then .arbitrary
  else if (is_positive s ∧ is_positive o) ∨ (is_negative s ∧ is_negative o) ∨
      (is_positive s ∧ is_negative o) ∨ (is_negative s ∧ is_positive o) then
    .restricted
  else if (is_arbitrary s ∧ (is_positive o ∨ is_negative o)) ∨
      (is_arbitrary o ∧ (is_positive s ∨ is_negative s)) then
    .semiRestricted
  else if (is_near_zero s ∧ is_arbitrary o) ∨ (is_arbitrary s ∧ is_near_zero o) then
    .semiNearZero
  else .invalid

/-- `__rmul__`: number-by-number multiplication, dispatching on the operand
classifications; an unmatched combination raises `ValueError`. -/
def rmul (s o : Trap) : Option Trap :=
  if is_arbitrary s ∧ is_arbitrary o then arbitrary_multiplication s o
  else if (is_positive s ∧ is_positive o) ∨ (is_negative s ∧ is_negative o) ∨
      (is_positive s ∧ is_negative o) ∨ (is_negative s ∧ is_positive o) then
    restricted_multiplication s o
  else if (is_arbitrary s ∧ (is_positive o ∨ is_negative o)) ∨
      (is_arbitrary o ∧ (is_positive s ∨ is_negative s)) then
    semi_restricted_multiplication s o
  else if (is_near_zero s ∧ is_arbitrary o) ∨ (is_arbitrary s ∧ is_near_zero o) then
    semi_restricted_with_near_zero_multiplication s o
  else none

/-- Python division of rationals: raises `ZeroDivisionError` on a zero
denominator, modelled as `none`. -/
def pydiv (x y : ℚ) : Option ℚ :=
  if y = 0 then none else some (x / y)

/-- `__truediv__` on two trapezoidal numbers: assert the dividend satisfies
`is_positive` and every divisor boundary is strictly positive, then sort the
four cross quotients and construct the result. -/
def truediv (s o : Trap) : Option Trap :=
  if 0 ≤ s.a1 then
    if 0 < o.a1 ∧ 0 < o.a2 ∧ 0 < o.a3 ∧ 0 < o.a4 then
      mkTrapOfList
        (sortList [s.a1 / o.a4, s.a2 / o.a3, s.a3 / o.a2, s.a4 / o.a1])
    else none
  else none

/-- `__rtruediv__`: a scalar k divided by a trapezoidal number; asserts
0 < k, then forms k/a4, k/a3, k/a2, k/a1 and constructs the result. -/
def rtruediv (s : Trap) (k : ℚ) : Option Trap :=
  if 0 < k then
    match pydiv k s.a4, pydiv k s.a3, pydiv k s.a2, pydiv k s.a1 with
    | some q1, some q2, some q3, some q4 => mkTrap q1 q2 q3 q4
    | _, _, _, _ => none
  else none

/-- `membership_function` at a query point x: the nested conditional of the
source, with the two linear ramps dividing by a2 - a1 resp. a4 - a3. -/
def membership_function (t : Trap) (x : ℚ) : Option ℚ :=
  if x < t.a1 ∨ t.a4 < x then some 0
  else if t.a1 ≤ x ∧ x < t.a2 then pydiv (x - t.a1) (t.a2 - t.a1)
  else if t.a2 ≤ x ∧ x < t.a3 then some 1
  else pydiv (t.a4 - x) (t.a4 - t.a3)

/-- `ambiguity`: s + (r + l)/6 with s = (a3 - a2)/2, l = a2 - a1,
r = a4 - a3. -/
def ambiguity (t : Trap) : ℚ :=
  (t.a3 - t.a2) / 2 + ((t.a4 - t.a3) + (t.a2 - t.a1)) / 6

/-- The sample mean `1/len(x) * sum(x)`; an empty sample raises
`ZeroDivisionError`. -/
def mean (l : List ℚ) : Option ℚ :=
  if l.length = 0 then none else some (1 / (l.length : ℚ) * l.sum)

/-- The mean-difference statistic of the independent test. -/
def indep_stat (x y : List ℚ) : Option ℚ :=
  match mean x, mean y with
  | some mx, some my => some (mx - my)
  | _, _ => none

/-- The split of a permuted pooled sequence inside the resampling loop of
`independent_measure_data_ambiguity`: the first component is
`permute_w[len(permute_w) // 2 + 1:]` (the group playing X) and the second is
`permute_w[: len(permute_w) // 2]` (the group playing Y). -/
def indep_split (w : List ℚ) : List ℚ × List ℚ :=
  (w.drop (w.length / 2 + 1), w.take (w.length / 2))

/-- One resampled statistic of the independent test. -/
def indep_resample_stat (w : List ℚ) : Option ℚ :=
  indep_stat (indep_split w).1 (indep_split w).2

/-- The resampling loop of the independent test: `σ i` is the i-th drawn
permutation of the pooled sequence; count the resamples whose absolute
statistic reaches the absolute observed statistic. -/
def indep_count (t0 : ℚ) (σ : ℕ → List ℚ) : ℕ → Option ℕ
  | 0 => some 0
  | k + 1 =>
    match indep_count t0 σ k, indep_resample_stat (σ k) with
    | some c, some v => some (c + if |t0| ≤ |v| then 1 else 0)
    | _, _ => none

/-- `independent_measure_data_ambiguity` on two samples, with the stream of
drawn permutations passed explicitly; K = 10000; a failure in the observed
statistic or in any resample propagates, otherwise the p-value is the
threshold count over K. -/
def independent_measure_data_ambiguity (x y : List ℚ) (σ : ℕ → List ℚ) :
    Option ℚ :=
  (indep_stat x y).bind fun t0 =>
    (indep_count t0 σ 10000).map fun c : ℕ => (c : ℚ) / 10000

/-- The signed sum of one resample of the dependent test: `sgn j` is the sign
drawn for the j-th pair difference. -/
def signed_sum (z : List ℚ) (sgn : ℕ → ℚ) : ℚ :=
  (z.enum.map (fun p => sgn p.1 * p.2)).sum

/-- The resampling loop of the dependent test: `σ i j` is the sign drawn in
iteration i for pair j. -/
def dep_count (z : List ℚ) (t0 : ℚ) (σ : ℕ → ℕ → ℚ) : ℕ → ℕ
  | 0 => 0
  | k + 1 => dep_count z t0 σ k + if |t0| ≤ |signed_sum z (σ k)| then 1 else 0

/-- `dependent_measure_data_ambiguity` on two samples: the pair differences
`concat_z` come from `zip` (which silently truncates to the shorter sample),
the observed statistic is their sum, then K = 10000 sign-flip resamples. -/
def dependent_measure_data_ambiguity (x y : List ℚ) (σ : ℕ → ℕ → ℚ) : ℚ :=
  ((dep_count ((x.zip y).map (fun p => p.1 - p.2))
      (((x.zip y).map (fun p => p.1 - p.2)).sum) σ 10000 : ℕ) : ℚ) / 10000

/-! Helper lemmas shared by the claim theorems. -/

lemma mkTrap_ordered {x1 x2 x3 x4 : ℚ} {t : Trap}
    (h : mkTrap x1 x2 x3 x4 = some t) : ordered t := by
  unfold mkTrap at h
  split at h
  · cases h
    exact ‹_›
  · cases h

lemma mkTrapOfList_ordered : ∀ {l : List ℚ} {t : Trap},
    mkTrapOfList l = some t → ordered t
  | [], _, h => by cases h
  | [_], _, h => by cases h
  | [_, _], _, h => by cases h
  | [_, _, _], _, h => by cases h
  | [_, _, _, _], _, h => mkTrap_ordered h
  | _ :: _ :: _ :: _ :: _ :: _, _, h => by cases h

lemma near_zero_arbitrary (t : Trap) (h : is_near_zero t) : is_arbitrary t := by
  unfold is_near_zero at h
  unfold is_arbitrary
  rcases h with ⟨h1, h2, h3, h4⟩ | ⟨h1, h2, h3, h4⟩ | ⟨h1, h2, h3, h4⟩ <;>
    exact ⟨by linarith, by linarith⟩

lemma sortList_four (w x y z : ℚ) :
    ∃ b1 b2 b3 b4 : ℚ, sortList [w, x, y, z] = [b1, b2, b3, b4] ∧
      (b1 ≤ b2 ∧ b2 ≤ b3 ∧ b3 ≤ b4) ∧ List.Perm [b1, b2, b3, b4] [w, x, y, z] := by
  have hp : List.Perm (sortList [w, x, y, z]) [w, x, y, z] :=
    List.perm_insertionSort _ _
  have hs : List.Sorted (· ≤ ·) (sortList [w, x, y, z]) :=
    List.sorted_insertionSort _ _
  have hl : (sortList [w, x, y, z]).length = 4 := by
    simpa using hp.length_eq
  rcases hlist : sortList [w, x, y, z] with
    _ | ⟨b1, _ | ⟨b2, _ | ⟨b3, _ | ⟨b4, rest⟩⟩⟩⟩
  · rw [hlist] at hl; simp at hl
  · rw [hlist] at hl; simp at hl
  · rw [hlist] at hl; simp at hl
  · rw [hlist] at hl; simp at hl
  · rw [hlist] at hl
    have hr : rest = [] := by
      have h0 : rest.length = 0 := by
        simp only [List.length_cons] at hl
        omega
      exact List.length_eq_zero.mp h0
    subst hr
    rw [hlist] at hs hp
    refine ⟨b1, b2, b3, b4, rfl, ?_, hp⟩
    obtain ⟨ha, hs1⟩ := List.sorted_cons.mp hs
    obtain ⟨hb, hs2⟩ := List.sorted_cons.mp hs1
    obtain ⟨hc, -⟩ := List.sorted_cons.mp hs2
    exact ⟨ha b2 (by simp), hb b3 (by simp), hc b4 (by simp)⟩

lemma mkTrapOfList_sortList (w x y z : ℚ) :
    ∃ t : Trap, mkTrapOfList (sortList [w, x, y, z]) = some t ∧ ordered t ∧
      List.Perm [t.a1, t.a2, t.a3, t.a4] [w, x, y, z] := by
  obtain ⟨b1, b2, b3, b4, he, hord, hperm⟩ := sortList_four w x y z
  refine ⟨⟨b1, b2, b3, b4⟩, ?_, hord, hperm⟩
  rw [he]
  show mkTrap b1 b2 b3 b4 = some ⟨b1, b2, b3, b4⟩
  unfold mkTrap
  rw [if_pos hord]

/-! Claim theorems. -/

/-- C1: in the independent-samples permutation test, the split of the permuted
pooled sequence is claimed to place every pooled element in exactly one of the
two groups.  Evaluating the code at the pooled permutation [1, 2, 3, 4]
(length n = 4): the first group is `permute_w[n // 2 + 1:] = [4]` and the
second group is `permute_w[: n // 2] = [1, 2]`, so the element 3 at the
midpoint index n // 2 = 2 lies in neither group and only 3 of the 4 elements
are used. -/
theorem c1_split_misses_midpoint_element :
    (indep_split [(1 : ℚ), 2, 3, 4]).1 = [4] ∧
    (indep_split [(1 : ℚ), 2, 3, 4]).2 = [1, 2] ∧
    (3 : ℚ) ∉ (indep_split [(1 : ℚ), 2, 3, 4]).1 ∧
    (3 : ℚ) ∉ (indep_split [(1 : ℚ), 2, 3, 4]).2 ∧
    (indep_split [(1 : ℚ), 2, 3, 4]).1.length +
      (indep_split [(1 : ℚ), 2, 3, 4]).2.length = 3 := by
  decide

/-- C2 counterexample: the trapezoid (-2, -1, -1, 1) is near-zero and
(-1, 0, 1, 2) is arbitrary, yet `__rmul__` dispatches this pair to the
arbitrary-multiplication strategy, not to the
semi-restricted-with-near-zero strategy. -/
theorem c2_counterexample :
    is_near_zero ⟨-2, -1, -1, 1⟩ ∧ is_arbitrary ⟨-1, 0, 1, 2⟩ ∧
    rmul_strategy ⟨-2, -1, -1, 1⟩ ⟨-1, 0, 1, 2⟩ = MulStrategy.arbitrary ∧
    rmul_strategy ⟨-2, -1, -1, 1⟩ ⟨-1, 0, 1, 2⟩ ≠ MulStrategy.semiNearZero ∧
    rmul ⟨-2, -1, -1, 1⟩ ⟨-1, 0, 1, 2⟩ =
      arbitrary_multiplication ⟨-2, -1, -1, 1⟩ ⟨-1, 0, 1, 2⟩ := by
  have h2 : is_arbitrary ⟨-1, 0, 1, 2⟩ := by decide
  have h3 : is_arbitrary (⟨-2, -1, -1, 1⟩ : Trap) := by decide
  have hstrat : rmul_strategy ⟨-2, -1, -1, 1⟩ ⟨-1, 0, 1, 2⟩ =
      MulStrategy.arbitrary := by
    unfold rmul_strategy
    rw [if_pos ⟨h3, h2⟩]
  refine ⟨by decide, h2, hstrat, ?_, ?_⟩
  · rw [hstrat]
    decide
  · unfold rmul
    rw [if_pos ⟨h3, h2⟩]

/-- C2 amended: every pair with one near-zero and the other arbitrary operand
is dispatched by `__rmul__` to arbitrary multiplication, because near-zero
implies arbitrary and the both-arbitrary branch is tested first; the
semi-restricted-with-near-zero branch is unreachable through the operator. -/
theorem c2_amended (s o : Trap)
    (h : (is_near_zero s ∧ is_arbitrary o) ∨ (is_arbitrary s ∧ is_near_zero o)) :
    rmul_strategy s o = MulStrategy.arbitrary ∧
    rmul s o = arbitrary_multiplication s o := by
  have hso : is_arbitrary s ∧ is_arbitrary o := by
    rcases h with ⟨h1, h2⟩ | ⟨h1, h2⟩
    · exact ⟨near_zero_arbitrary s h1, h2⟩
    · exact ⟨h1, near_zero_arbitrary o h2⟩
  constructor
  · unfold rmul_strategy
    rw [if_pos hso]
  · unfold rmul
    rw [if_pos hso]

/-- Witness for C2 amended at the near-zero operand (-1, 0, 1, 2) and the
arbitrary operand (-5, 0, 0, 5). -/
theorem c2_witness :
    rmul_strategy ⟨-1, 0, 1, 2⟩ ⟨-5, 0, 0, 5⟩ = MulStrategy.arbitrary ∧
    rmul ⟨-1, 0, 1, 2⟩ ⟨-5, 0, 0, 5⟩ =
      arbitrary_multiplication ⟨-1, 0, 1, 2⟩ ⟨-5, 0, 0, 5⟩ :=
  c2_amended ⟨-1, 0, 1, 2⟩ ⟨-5, 0, 0, 5⟩ (Or.inl ⟨by decide, by decide⟩)

/-- C9: constructing a trapezoidal number from a number of values other than
four, or from four values that are not non-decreasing (for example
(4, 3, 2, 1)), fails and produces no instance. -/
theorem c9_constructor_rejects_malformed :
    (∀ args : List ℚ, args.length ≠ 4 → mkTrapOfList args = none) ∧
    (∀ x1 x2 x3 x4 : ℚ, ¬(x1 ≤ x2 ∧ x2 ≤ x3 ∧ x3 ≤ x4) →
      mkTrapOfList [x1, x2, x3, x4] = none) ∧
    mkTrapOfList [(4 : ℚ), 3, 2, 1] = none := by
  refine ⟨?_, ?_, by decide⟩
  · intro args h
    rcases args with _ | ⟨a, _ | ⟨b, _ | ⟨c, _ | ⟨d, _ | ⟨e, rest⟩⟩⟩⟩⟩ <;>
      first
        | rfl
        | exact absurd rfl h
  · intro x1 x2 x3 x4 h
    show mkTrap x1 x2 x3 x4 = none
    unfold mkTrap
    rw [if_neg h]

/-- Witness for C9 at a three-element argument list and at the decreasing
boundaries (9, 3, 2, 1). -/
theorem c9_witness :
    mkTrapOfList [(1 : ℚ), 2, 3] = none ∧ mkTrapOfList [(9 : ℚ), 3, 2, 1] = none :=
  ⟨c9_constructor_rejects_malformed.1 [1, 2, 3] (by decide),
    c9_constructor_rejects_malformed.2.1 9 3 2 1 (by decide)⟩

/-- C10: every near-zero trapezoidal number is also arbitrary (each of the
three zero-straddling patterns forces a1 < 0 < a4), and the two dispatch
categories genuinely overlap. -/
theorem c10_near_zero_implies_arbitrary :
    (∀ t : Trap, is_near_zero t → is_arbitrary t) ∧
    (∃ t : Trap, is_near_zero t ∧ is_arbitrary t) :=
  ⟨near_zero_arbitrary, ⟨⟨-2, -1, -1, 1⟩, by decide, by decide⟩⟩

/-- Witness for C10 at the near-zero trapezoid (-1, 0, 1, 2). -/
theorem c10_witness : is_arbitrary ⟨-1, 0, 1, 2⟩ :=
  c10_near_zero_implies_arbitrary.1 ⟨-1, 0, 1, 2⟩ (by decide)

lemma pymin_eq (a b : ℚ) : pymin a b = min a b := by
  unfold pymin
  rw [min_def]

lemma pymax_eq (a b : ℚ) : pymax a b = max a b := by
  unfold pymax
  rw [max_def]

lemma restricted_multiplication_ordered {s o t : Trap}
    (h : restricted_multiplication s o = some t) : ordered t := by
  unfold restricted_multiplication at h
  split_ifs at h <;> exact mkTrap_ordered h

lemma semi_restricted_multiplication_ordered {s o t : Trap}
    (h : semi_restricted_multiplication s o = some t) : ordered t := by
  unfold semi_restricted_multiplication at h
  split_ifs at h <;> exact mkTrap_ordered h

lemma semi_restricted_with_near_zero_multiplication_ordered {s o t : Trap}
    (h : semi_restricted_with_near_zero_multiplication s o = some t) :
    ordered t := by
  unfold semi_restricted_with_near_zero_multiplication at h
  split_ifs at h <;> exact mkTrap_ordered h

lemma rmul_ordered {s o t : Trap} (h : rmul s o = some t) : ordered t := by
  unfold rmul at h
  split_ifs at h
  · exact mkTrap_ordered h
  · exact restricted_multiplication_ordered h
  · exact semi_restricted_multiplication_ordered h
  · exact semi_restricted_with_near_zero_multiplication_ordered h

lemma truediv_ordered {s o t : Trap} (h : truediv s o = some t) : ordered t := by
  unfold truediv at h
  split_ifs at h
  exact mkTrapOfList_ordered h

lemma rtruediv_ordered {s : Trap} {k : ℚ} {t : Trap}
    (h : rtruediv s k = some t) : ordered t := by
  unfold rtruediv at h
  split_ifs at h
  split at h
  · exact mkTrap_ordered h
  · cases h

/-- C5: every trapezoidal number produced by any of the arithmetic operators
(addition, subtraction, negation, scalar and number-by-number multiplication,
both divisions) has non-decreasing boundaries a1 ≤ a2 ≤ a3 ≤ a4, because the
constructor re-validates the ordering before any result instance exists. -/
theorem c5_ordering_invariant (s o t : Trap) (k : ℚ) :
    (add s o = some t → ordered t) ∧
    (sub s o = some t → ordered t) ∧
    (neg s = some t → ordered t) ∧
    (scalar_mul s k = some t → ordered t) ∧
    (rmul s o = some t → ordered t) ∧
    (truediv s o = some t → ordered t) ∧
    (rtruediv s k = some t → ordered t) :=
  ⟨fun h => mkTrapOfList_ordered h, fun h => mkTrapOfList_ordered h,
    fun h => mkTrap_ordered h, fun h => mkTrap_ordered h,
    fun h => rmul_ordered h, fun h => truediv_ordered h,
    fun h => rtruediv_ordered h⟩

/-- Witness for C5: the restricted product of (1, 2, 3, 4) and (2, 3, 4, 5)
is produced and ordered. -/
theorem c5_witness : ordered ⟨2, 6, 12, 20⟩ :=
  (c5_ordering_invariant ⟨1, 2, 3, 4⟩ ⟨2, 3, 4, 5⟩ ⟨2, 6, 12, 20⟩ 0).2.2.2.2.1
    (by norm_num [rmul, is_arbitrary, is_positive, is_negative,
      restricted_multiplication, mkTrap])

/-- C8: scalar multiplication multiplies the outer pair (a1, a4) and the inner
pair (a2, a3) independently and re-orders each pair with min and max, which
yields a constructed, correctly ordered result for every rational scalar,
negative scalars included. -/
theorem c8_scalar_mul_ordered (k : ℚ) (t : Trap) (h : ordered t) :
    ∃ u : Trap, scalar_mul t k = some u ∧ ordered u := by
  obtain ⟨h12, h23, h34⟩ := h
  have key : pymin (k * t.a1) (k * t.a4) ≤ pymin (k * t.a2) (k * t.a3) ∧
      pymin (k * t.a2) (k * t.a3) ≤ pymax (k * t.a2) (k * t.a3) ∧
      pymax (k * t.a2) (k * t.a3) ≤ pymax (k * t.a1) (k * t.a4) := by
    rw [pymin_eq, pymin_eq, pymax_eq, pymax_eq]
    refine ⟨?_, min_le_max, ?_⟩
    · rcases le_total 0 k with hk | hk
      · exact le_min ((min_le_left _ _).trans (mul_le_mul_of_nonneg_left h12 hk))
          ((min_le_left _ _).trans (mul_le_mul_of_nonneg_left (h12.trans h23) hk))
      · exact le_min
          ((min_le_right _ _).trans (mul_le_mul_of_nonpos_left (h23.trans h34) hk))
          ((min_le_right _ _).trans (mul_le_mul_of_nonpos_left h34 hk))
    · rcases le_total 0 k with hk | hk
      · exact max_le ((mul_le_mul_of_nonneg_left (h23.trans h34) hk).trans
            (le_max_right _ _))
          ((mul_le_mul_of_nonneg_left h34 hk).trans (le_max_right _ _))
      · exact max_le ((mul_le_mul_of_nonpos_left h12 hk).trans (le_max_left _ _))
          ((mul_le_mul_of_nonpos_left (h12.trans h23) hk).trans (le_max_left _ _))
  have hsome : scalar_mul t k =
      some ⟨pymin (k * t.a1) (k * t.a4), pymin (k * t.a2) (k * t.a3),
        pymax (k * t.a2) (k * t.a3), pymax (k * t.a1) (k * t.a4)⟩ := by
    unfold scalar_mul mkTrap
    exact if_pos key
  exact ⟨_, hsome, key⟩

/-- Witness for C8 at the scalar -2 and the trapezoid (1, 2, 3, 4). -/
theorem c8_witness :
    ∃ u : Trap, scalar_mul ⟨1, 2, 3, 4⟩ (-2) = some u ∧ ordered u :=
  c8_scalar_mul_ordered (-2) ⟨1, 2, 3, 4⟩ (by decide)

lemma mean_of_ne_nil {l : List ℚ} (h : l ≠ []) :
    mean l = some (1 / (l.length : ℚ) * l.sum) := by
  unfold mean
  rw [if_neg (fun hl => h (List.length_eq_zero.mp hl))]

lemma indep_stat_self {x : List ℚ} (h : x ≠ []) : indep_stat x x = some 0 := by
  unfold indep_stat
  rw [mean_of_ne_nil h]
  show some (1 / (x.length : ℚ) * x.sum - 1 / (x.length : ℚ) * x.sum) = some 0
  rw [sub_self]

lemma indep_stat_eq {x y : List ℚ} (hx : x ≠ []) (hy : y ≠ []) :
    indep_stat x y =
      some (1 / (x.length : ℚ) * x.sum - 1 / (y.length : ℚ) * y.sum) := by
  unfold indep_stat
  rw [mean_of_ne_nil hx, mean_of_ne_nil hy]

lemma indep_resample_defined {w : List ℚ} (h : 3 ≤ w.length) :
    ∃ v, indep_resample_stat w = some v := by
  have h1 : w.drop (w.length / 2 + 1) ≠ [] := by
    intro e
    have he := congrArg List.length e
    simp only [List.length_drop, List.length_nil] at he
    omega
  have h2 : w.take (w.length / 2) ≠ [] := by
    intro e
    have he := congrArg List.length e
    simp only [List.length_take, List.length_nil] at he
    omega
  exact ⟨_, indep_stat_eq h1 h2⟩

lemma indep_count_all {t0 : ℚ} {σ : ℕ → List ℚ}
    (H : ∀ i, ∃ v, indep_resample_stat (σ i) = some v ∧ |t0| ≤ |v|) :
    ∀ k, indep_count t0 σ k = some k := by
  intro k
  induction k with
  | zero => rfl
  | succ n ih =>
    obtain ⟨v, hv, hle⟩ := H n
    simp only [indep_count]
    rw [ih, hv]
    show some (n + if |t0| ≤ |v| then 1 else 0) = some (n + 1)
    rw [if_pos hle]

lemma indep_count_none {t0 : ℚ} {σ : ℕ → List ℚ}
    (H : ∀ i, indep_resample_stat (σ i) = none) :
    ∀ k, k ≠ 0 → indep_count t0 σ k = none := by
  intro k hk
  cases k with
  | zero => exact absurd rfl hk
  | succ n =>
    simp only [indep_count]
    rw [H n]
    cases indep_count t0 σ n <;> rfl

/-- C4 counterexample: with the singleton sample X = [1] the independent test
does not return 1: the pooled sequence has length 2, the first resample group
`permute_w[2 // 2 + 1:]` is empty, and its mean divides by zero, so no p-value
is produced. -/
theorem c4_counterexample :
    independent_measure_data_ambiguity [(1 : ℚ)] [1] (fun _ => [1, 1]) = none := by
  have h1 : indep_stat [(1 : ℚ)] [1] = some 0 := indep_stat_self (by simp)
  have hres : ∀ i : ℕ, indep_resample_stat ((fun _ : ℕ => [(1 : ℚ), 1]) i) = none := by
    intro i
    show indep_resample_stat [(1 : ℚ), 1] = none
    rfl
  have h2 : indep_count (0 : ℚ) (fun _ => [(1 : ℚ), 1]) 10000 = none :=
    indep_count_none hres 10000 (by norm_num)
  rw [independent_measure_data_ambiguity, h1, Option.some_bind', h2]
  rfl

/-- C4 amended: for every sample X with at least two elements, calling the
independent test with both arguments equal to X returns exactly 1, whatever
permutations of the pooled sequence are drawn: the observed statistic is 0, so
every one of the 10000 resamples satisfies the threshold.  (With a singleton
sample the first resample group is empty and the computation fails instead,
a consequence of the off-by-one split.) -/
theorem c4_identical_samples (X : List ℚ) (σ : ℕ → List ℚ)
    (hlen : 2 ≤ X.length) (hperm : ∀ i, List.Perm (σ i) (X ++ X)) :
    independent_measure_data_ambiguity X X σ = some 1 := by
  have hne : X ≠ [] := by
    intro e
    rw [e] at hlen
    simp at hlen
  have h1 : indep_stat X X = some 0 := indep_stat_self hne
  have H : ∀ i, ∃ v, indep_resample_stat (σ i) = some v ∧ |(0 : ℚ)| ≤ |v| := by
    intro i
    have hl : 3 ≤ (σ i).length := by
      have hpl := (hperm i).length_eq
      rw [List.length_append] at hpl
      omega
    obtain ⟨v, hv⟩ := indep_resample_defined hl
    refine ⟨v, hv, ?_⟩
    rw [abs_zero]
    exact abs_nonneg v
  have h2 : indep_count (0 : ℚ) σ 10000 = some 10000 := indep_count_all H 10000
  rw [independent_measure_data_ambiguity, h1, Option.some_bind', h2,
    Option.map_some']
  norm_num

/-- Witness for C4 amended: the two-element sample [0, 1] against itself under
the constant permutation stream gives exactly 1. -/
theorem c4_witness :
    independent_measure_data_ambiguity [(0 : ℚ), 1] [0, 1]
      (fun _ => [0, 1, 0, 1]) = some 1 :=
  c4_identical_samples [0, 1] (fun _ => [0, 1, 0, 1]) (by norm_num)
    (fun _ => List.Perm.refl _)

lemma dep_count_all {z : List ℚ} {t0 : ℚ} {σ : ℕ → ℕ → ℚ}
    (H : ∀ i, |t0| ≤ |signed_sum z (σ i)|) : ∀ k, dep_count z t0 σ k = k := by
  intro k
  induction k with
  | zero => rfl
  | succ n ih =>
    simp only [dep_count]
    rw [ih, if_pos (H n)]

/-- C3 counterexample: invoking the dependent test with the mismatched samples
X = [1, 2] and Y = [1] is not rejected: `zip` silently truncates the pairing
to the single pair (1, 1), and the p-value 1 computed from that truncated
pairing is returned. -/
theorem c3_counterexample :
    dependent_measure_data_ambiguity [(1 : ℚ), 2] [1] (fun _ _ => 1) = 1 := by
  have hz : ([(1 : ℚ), 2].zip [(1 : ℚ)]).map (fun p => p.1 - p.2) = [0] := by
    norm_num [List.zip_cons_cons, List.zip_nil_right]
  unfold dependent_measure_data_ambiguity
  rw [hz]
  have hs : ([(0 : ℚ)]).sum = 0 := by simp
  rw [hs]
  have H : ∀ i : ℕ, |(0 : ℚ)| ≤
      |signed_sum [0] ((fun (_ : ℕ) (_ : ℕ) => (1 : ℚ)) i)| := by
    intro i
    simp [signed_sum]
  rw [dep_count_all H 10000]
  norm_num

lemma zip_truncate : ∀ x y : List ℚ,
    x.zip y =
      (x.take (min x.length y.length)).zip (y.take (min x.length y.length))
  | [], y => by simp
  | a :: xs, [] => by simp
  | a :: xs, b :: ys => by
    simp only [List.length_cons, Nat.succ_min_succ, List.take_succ_cons,
      List.zip_cons_cons]
    rw [← zip_truncate xs ys]

/-- C3 amended: the dependent test checks only the argument count, not the
sample lengths; with samples of unequal length the pairing silently truncates
to the shorter sample, and the returned p-value is exactly the one computed
from the truncated pairing. -/
theorem c3_truncated_pairing (x y : List ℚ) (σ : ℕ → ℕ → ℚ) :
    dependent_measure_data_ambiguity x y σ =
      dependent_measure_data_ambiguity (x.take (min x.length y.length))
        (y.take (min x.length y.length)) σ := by
  unfold dependent_measure_data_ambiguity
  rw [← zip_truncate]

/-- C6 counterexample: the dividend (0, 1, 2, 3) is not strictly positive
(its left boundary is 0), yet division by (1, 2, 3, 4) succeeds and returns
the sorted quotients (0, 1/3, 1, 3): the code only asserts `is_positive`,
which is a1 ≥ 0. -/
theorem c6_counterexample :
    truediv ⟨0, 1, 2, 3⟩ ⟨1, 2, 3, 4⟩ = some ⟨0, 1/3, 1, 3⟩ ∧
    ¬(0 < (Trap.mk 0 1 2 3).a1) := by
  constructor
  · norm_num [truediv, sortList, List.insertionSort, List.orderedInsert,
      mkTrapOfList, mkTrap]
  · norm_num

/-- C6 amended: division succeeds exactly when the dividend satisfies
`is_positive` (a1 ≥ 0, a zero left boundary allowed) and every boundary of
the divisor is strictly positive; on success the result is ordered and its
boundaries are a permutation (namely the ascending sort) of the four
quotients a1/b4, a2/b3, a3/b2, a4/b1; any other combination fails. -/
theorem c6_division_domain (s o : Trap) :
    ((∃ t, truediv s o = some t) ↔
      0 ≤ s.a1 ∧ 0 < o.a1 ∧ 0 < o.a2 ∧ 0 < o.a3 ∧ 0 < o.a4) ∧
    (∀ t, truediv s o = some t → ordered t ∧
      List.Perm [t.a1, t.a2, t.a3, t.a4]
        [s.a1 / o.a4, s.a2 / o.a3, s.a3 / o.a2, s.a4 / o.a1]) := by
  unfold truediv
  split_ifs with h1 h2
  · obtain ⟨t, ht, hord, hperm⟩ :=
      mkTrapOfList_sortList (s.a1 / o.a4) (s.a2 / o.a3) (s.a3 / o.a2)
        (s.a4 / o.a1)
    refine ⟨⟨fun _ => ⟨h1, h2.1, h2.2.1, h2.2.2.1, h2.2.2.2⟩,
      fun _ => ⟨t, ht⟩⟩, ?_⟩
    intro u hu
    rw [ht] at hu
    obtain rfl := Option.some.inj hu
    exact ⟨hord, hperm⟩
  · refine ⟨⟨fun he => ?_, fun hc => absurd ⟨hc.2.1, hc.2.2.1, hc.2.2.2.1,
      hc.2.2.2.2⟩ h2⟩, fun t ht => by cases ht⟩
    obtain ⟨t, ht⟩ := he
    cases ht
  · refine ⟨⟨fun he => ?_, fun hc => absurd hc.1 h1⟩, fun t ht => by cases ht⟩
    obtain ⟨t, ht⟩ := he
    cases ht

/-- Witness for C6 amended: division of (1, 2, 3, 4) by (2, 3, 4, 5)
succeeds. -/
theorem c6_witness : ∃ t : Trap, truediv ⟨1, 2, 3, 4⟩ ⟨2, 3, 4, 5⟩ = some t :=
  (c6_division_domain ⟨1, 2, 3, 4⟩ ⟨2, 3, 4, 5⟩).1.mpr
    (show (0 : ℚ) ≤ 1 ∧ (0 : ℚ) < 2 ∧ (0 : ℚ) < 3 ∧ (0 : ℚ) < 4 ∧ (0 : ℚ) < 5
      by norm_num)

/-- C7 counterexample: the degenerate trapezoid (1, 2, 3, 3) is valid, yet the
membership function fails at the query point 3: the final ramp divides by
a4 - a3 = 0. -/
theorem c7_counterexample :
    ordered ⟨1, 2, 3, 3⟩ ∧ membership_function ⟨1, 2, 3, 3⟩ 3 = none := by
  constructor
  · decide
  · norm_num [membership_function, pydiv]

/-- C7 amended: for every valid trapezoid, membership evaluation fails exactly
when a3 = a4 and the query point is a4 (the final ramp divides by zero);
everywhere the claimed piecewise form speaks, the returned value agrees with
it: 0 outside the support, (x - a1)/(a2 - a1) on the left ramp, 1 on the
core interval up to a3, and (a4 - x)/(a4 - a3) on the right ramp. -/
theorem c7_membership_piecewise (t : Trap) (x : ℚ) (h : ordered t) :
    (membership_function t x = none ↔ t.a3 = t.a4 ∧ x = t.a4) ∧
    (x < t.a1 → membership_function t x = some 0) ∧
    (t.a4 < x → membership_function t x = some 0) ∧
    (t.a1 ≤ x → x < t.a2 →
      membership_function t x = some ((x - t.a1) / (t.a2 - t.a1))) ∧
    (t.a2 ≤ x → x < t.a3 → membership_function t x = some 1) ∧
    (t.a3 < x → x ≤ t.a4 →
      membership_function t x = some ((t.a4 - x) / (t.a4 - t.a3))) := by
  obtain ⟨h12, h23, h34⟩ := h
  unfold membership_function pydiv
  split_ifs with hc1 hc2 hd hc3 he
  · -- outside the support: result some 0
    refine ⟨⟨fun hn => absurd hn (by simp), ?_⟩,
      fun _ => rfl, fun _ => rfl, ?_, ?_, ?_⟩
    · rintro ⟨hq, rfl⟩
      rcases hc1 with hlt | hgt
      · exact absurd hlt (by linarith)
      · exact absurd hgt (by linarith)
    · intro hx1 hx2
      exfalso
      rcases hc1 with hlt | hgt <;> linarith
    · intro hx1 hx2
      exfalso
      rcases hc1 with hlt | hgt <;> linarith
    · intro hx1 hx2
      exfalso
      rcases hc1 with hlt | hgt <;> linarith
  · -- left ramp with zero denominator: impossible since a1 ≤ x < a2
    exfalso
    have h21 := sub_eq_zero.mp hd
    obtain ⟨hx1, hx2⟩ := hc2
    linarith
  · -- left ramp
    obtain ⟨hx1, hx2⟩ := hc2
    refine ⟨⟨fun hn => absurd hn (by simp), ?_⟩,
      ?_, ?_, fun _ _ => rfl, ?_, ?_⟩
    · rintro ⟨hq, rfl⟩
      linarith
    · intro hlt
      exfalso
      linarith
    · intro hgt
      exfalso
      linarith
    · intro ha hb
      exfalso
      linarith
    · intro ha hb
      exfalso
      linarith
  · -- core: result some 1
    obtain ⟨hx2, hx3⟩ := hc3
    refine ⟨⟨fun hn => absurd hn (by simp), ?_⟩,
      ?_, ?_, ?_, fun _ _ => rfl, ?_⟩
    · rintro ⟨hq, rfl⟩
      linarith
    · intro hlt
      exfalso
      linarith
    · intro hgt
      exfalso
      linarith
    · intro ha hb
      exfalso
      linarith
    · intro ha hb
      exfalso
      linarith
  · -- right ramp with zero denominator: a3 = a4 and necessarily x = a4
    push_neg at hc1 hc2 hc3
    obtain ⟨hax, hxa⟩ := hc1
    have h2x : t.a2 ≤ x := hc2 hax
    have h3x : t.a3 ≤ x := hc3 h2x
    have h43 := sub_eq_zero.mp he
    have hxeq : x = t.a4 := le_antisymm hxa (by linarith)
    refine ⟨⟨fun _ => ⟨h43.symm, hxeq⟩, fun _ => rfl⟩, ?_, ?_, ?_, ?_, ?_⟩
    · intro hlt
      exfalso
      linarith
    · intro hgt
      exfalso
      linarith
    · intro ha hb
      exfalso
      linarith
    · intro ha hb
      exfalso
      linarith
    · intro ha hb
      exfalso
      linarith
  · -- right ramp
    push_neg at hc1 hc2 hc3
    obtain ⟨hax, hxa⟩ := hc1
    have h2x : t.a2 ≤ x := hc2 hax
    have h3x : t.a3 ≤ x := hc3 h2x
    have h43 : t.a4 - t.a3 ≠ 0 := he
    refine ⟨⟨fun hn => absurd hn (by simp), ?_⟩,
      ?_, ?_, ?_, ?_, fun _ _ => rfl⟩
    · rintro ⟨hq, rfl⟩
      exact h43 (by rw [hq, sub_self])
    · intro hlt
      exfalso
      linarith
    · intro hgt
      exfalso
      linarith
    · intro ha hb
      exfalso
      linarith
    · intro ha hb
      exfalso
      linarith

/-- Witness for C7 amended: the membership of (1, 2, 3, 4) at 5/2 is 1. -/
theorem c7_witness : membership_function ⟨1, 2, 3, 4⟩ (5/2) = some 1 :=
  (c7_membership_piecewise ⟨1, 2, 3, 4⟩ (5/2) (by decide)).2.2.2.2.1
    (show (2 : ℚ) ≤ 5/2 by norm_num) (show (5 : ℚ)/2 < 3 by norm_num)

end Trapz
